import Mathlib

/-!
Verification of the jet-selection repository (TIMBER_modules: JetMatching.cc,
FlatMass.cc, top_gen_matching.cc).

The C++ routines operate on position-aligned flat arrays of 32-bit floats and
signed integers.  We embed them shallowly: arrays become `List ℚ` / `List Int`,
float arithmetic becomes exact rational arithmetic (the spec describes the
contracts over real values), and machine loops become structural recursion.
Comparisons `deltaR < c` on a square-rooted quantity are embedded as the
equivalent squared comparison `deltaRsq < c*c`, which avoids `Real.sqrt` and is
exact over the rationals.

The circle constant is kept as an explicit parameter `pi` wherever the source
uses `M_PI` or `TMath::Pi()`; theorems quantify over it (with at most a bound
hypothesis), and closed instances use the literal constants from the source
text: `JetMatching.cc` falls back to `#define M_PI 3.14159`, and `TMath::Pi()`
returns the literal `3.14159265358979323846`.

Out-of-bounds reads are undefined behaviour in the C++ (`RVec::operator[]` is
unchecked); the embedding makes the value produced by such a read an explicit
parameter (`oobI` for integer arrays, `oobQ` for float arrays), so that
theorems can quantify over the unspecified memory contents and a dependence of
a result on `oobI`/`oobQ` exhibits a real out-of-bounds access.
-/

namespace JetSel

/-- The fallback value of `M_PI` defined at the top of `JetMatching.cc` and
`FlatMass.cc` (`#define M_PI 3.14159`). -/
def mPI : ℚ := 3.14159

/-- The literal returned by `TMath::Pi()` in ROOT's `TMath.h`, used by
`deltaR` in `top_gen_matching.cc`. -/
def tmathPi : ℚ := 3.14159265358979323846

/-- Read a float array at a signed index; out-of-range reads (negative index or
index past the end) produce the unspecified value `d`, mirroring the unchecked
`RVec::operator[]`. -/
def getQ (l : List ℚ) (d : ℚ) (i : Int) : ℚ :=
  if 0 ≤ i then l.getD i.toNat d else d

/-- Read an integer array at a signed index; out-of-range reads produce the
unspecified value `d`. -/
def getI (l : List Int) (d : Int) (i : Int) : Int :=
  if 0 ≤ i then l.getD i.toNat d else d

/-- Embedding of `DeltaPhi` from `JetMatching.cc`: `dPhi = fabs(phi1 - phi2); if (dPhi > pi)
dPhi = 2*pi - dPhi`.  The constant `pi` stands for `M_PI`. -/
def DeltaPhi (pi phi1 phi2 : ℚ) : ℚ :=
  let dPhi := |phi1 - phi2|
  if dPhi > pi then 2 * pi - dPhi else dPhi

/-- Squared version of `deltaR` from `top_gen_matching.cc`: wraps
`dPhi = phi1 - phi2` once into `(-pi, pi]` and returns `dEta² + dPhi²`
(the source returns the square root and only ever compares it against 0.8;
comparing the square against 0.64 is equivalent over the rationals). -/
def deltaRsq (pi eta1 phi1 eta2 phi2 : ℚ) : ℚ :=
  let dEta := eta1 - eta2
  let dPhi0 := phi1 - phi2
  let dPhi := if dPhi0 > pi then dPhi0 - 2 * pi
              else if dPhi0 ≤ -pi then dPhi0 + 2 * pi
              else dPhi0
  dEta * dEta + dPhi * dPhi

/-- The per-jet kinematic predicate of `SelectJets` (JetMatching.cc line 71):
`pt[i] > ptCut && std::abs(eta[i]) < etaCut && mass[i] > massCut`.  Reads past
an array's end return 0 (the C++ would be undefined; equal lengths are the
documented precondition and all theorems about mismatched reads avoid them). -/
def passCuts (pt eta mass : List ℚ) (ptCut etaCut massCut : ℚ) (i : Nat) : Bool :=
  decide (pt.getD i 0 > ptCut ∧ |eta.getD i 0| < etaCut ∧ mass.getD i 0 > massCut)

/-- Embedding of `SelectJets` from `JetMatching.cc`: scan indices `0 .. pt.size()-1` in order
and keep those passing the three strict cuts. -/
def SelectJets (pt eta mass : List ℚ) (ptCut etaCut massCut : ℚ) : List Nat :=
  (List.range pt.length).filter (passCuts pt eta mass ptCut etaCut massCut)

/-- C9: `SelectJets` returns exactly the indices passing all three strict cuts,
in ascending scan order; boundary-equal values are rejected; and on the spec's
scenario (`pt=[50,200]`, `eta=[0.1,3.0]`, `mass=[10,100]`, cuts `(30,2.4,50)`)
the output is empty. -/
theorem c9_selectJets_spec (pt eta mass : List ℚ) (ptCut etaCut massCut : ℚ) :
    (∀ i : Nat, i ∈ SelectJets pt eta mass ptCut etaCut massCut ↔
      (i < pt.length ∧ pt.getD i 0 > ptCut ∧ |eta.getD i 0| < etaCut ∧
        mass.getD i 0 > massCut)) ∧
    (SelectJets pt eta mass ptCut etaCut massCut).Pairwise (· < ·) ∧
    (∀ i : Nat, (pt.getD i 0 = ptCut ∨ |eta.getD i 0| = etaCut ∨
        mass.getD i 0 = massCut) →
      i ∉ SelectJets pt eta mass ptCut etaCut massCut) ∧
    SelectJets [50, 200] [0.1, 3.0] [10, 100] 30 2.4 50 = [] := by
  refine ⟨?_, ?_, ?_, ?_⟩
  · intro i
    simp only [SelectJets, List.mem_filter, List.mem_range, passCuts,
      decide_eq_true_eq]
  · exact (List.pairwise_lt_range _).sublist (List.filter_sublist _)
  · intro i h hmem
    simp only [SelectJets, List.mem_filter, List.mem_range, passCuts,
      decide_eq_true_eq] at hmem
    rcases h with h | h | h
    · rw [h] at hmem; exact lt_irrefl _ hmem.2.1
    · rw [h] at hmem; exact lt_irrefl _ hmem.2.2.1
    · rw [h] at hmem; exact lt_irrefl _ hmem.2.2.2
  · norm_num [SelectJets, passCuts, List.range_succ]

/-- C9 witness: the boundary-rejection conjunct applied at a concrete input
(`pt[0] = ptCut = 30`, so jet 0 is rejected). -/
theorem c9_selectJets_spec_witness :
    ([30, 50] : List ℚ).getD 0 0 = 30 ∧
      0 ∉ SelectJets [30, 50] [0, 0] [60, 60] 30 2.4 50 :=
  ⟨by simp,
    (c9_selectJets_spec [30, 50] [0, 0] [60, 60] 30 2.4 50).2.2.1 0
      (Or.inl (by simp))⟩

/-- C6 counterexample: `DeltaPhi` does not always land in `[0, π]`.  At
`phi1 = 10, phi2 = 0` the difference exceeds `2π`, and the single wrap
`2π - |Δφ|` produces a negative value — for both candidate values of `M_PI`
(the file's fallback `3.14159` and the math-header constant). -/
theorem c6_deltaPhi_counterexample :
    DeltaPhi mPI 10 0 < 0 ∧ DeltaPhi tmathPi 10 0 < 0 := by
  constructor <;> norm_num [DeltaPhi, mPI, tmathPi]

/-- C6 (amended): for inputs with `|phi1 - phi2| ≤ 2π`, `DeltaPhi` equals
`|phi1-phi2|` when that is ≤ π and `2π - |phi1-phi2|` otherwise, and the
result lies in `[0, π]`; and `DeltaPhi(3.0, -3.0) = 2π - 6.0` (≈ 0.283). -/
theorem c6_deltaPhi_amended :
    (∀ pi phi1 phi2 : ℚ, DeltaPhi pi phi1 phi2 =
      if |phi1 - phi2| ≤ pi then |phi1 - phi2| else 2 * pi - |phi1 - phi2|) ∧
    (∀ pi phi1 phi2 : ℚ, |phi1 - phi2| ≤ 2 * pi →
      0 ≤ DeltaPhi pi phi1 phi2 ∧ DeltaPhi pi phi1 phi2 ≤ pi) ∧
    DeltaPhi mPI 3 (-3) = 2 * mPI - 6 := by
  refine ⟨?_, ?_, ?_⟩
  · intro pi phi1 phi2
    unfold DeltaPhi
    by_cases hgt : |phi1 - phi2| > pi
    · rw [if_pos hgt, if_neg (not_le.mpr hgt)]
    · rw [if_neg hgt, if_pos (not_lt.mp hgt)]
  · intro pi phi1 phi2 h
    unfold DeltaPhi
    by_cases hgt : |phi1 - phi2| > pi
    · rw [if_pos hgt]
      exact ⟨by linarith, by linarith⟩
    · rw [if_neg hgt]
      exact ⟨abs_nonneg _, not_lt.mp hgt⟩
  · norm_num [DeltaPhi, mPI]

/-- C6 witness: the amended theorem's range clause applied at `pi = mPI`,
`phi1 = 4`, `phi2 = 0` (difference between π and 2π, so the wrapped branch
fires). -/
theorem c6_deltaPhi_amended_witness :
    |(4 : ℚ) - 0| ≤ 2 * mPI ∧ 0 ≤ DeltaPhi mPI 4 0 ∧ DeltaPhi mPI 4 0 ≤ mPI :=
  ⟨by norm_num [mPI], c6_deltaPhi_amended.2.1 mPI 4 0 (by norm_num [mPI])⟩

/-- Embedding of `IntersectIndices` from `JetMatching.cc`: build a membership set from `b`
and keep, in order, every element of `a` found in it (`unordered_set::count`
is equivalent to list membership). -/
def IntersectIndices (a b : List Int) : List Int :=
  a.filter (fun i => decide (i ∈ b))

/-- Helper for `specUnique`: keep elements not yet seen, in scan order. -/
def specUniqueAux (seen : List Int) : List Int → List Int
  | [] => []
  | x :: xs =>
      if x ∈ seen then specUniqueAux seen xs
      else x :: specUniqueAux (x :: seen) xs

/-- Modelled from the spec: `unique(a)` — "the first occurrence of each
distinct element of `a`, preserving `a`'s order".  No such function exists in
the source; it appears only in the spec's intersection-idempotence property. -/
def specUnique (a : List Int) : List Int := specUniqueAux [] a

lemma specUniqueAux_of_nodup :
    ∀ (xs seen : List Int), (∀ x ∈ xs, x ∉ seen) → xs.Nodup →
      specUniqueAux seen xs = xs := by
  intro xs
  induction xs with
  | nil => intro seen _ _; rfl
  | cons x xs ih =>
      intro seen hsee hnd
      have hx : x ∉ seen := hsee x (List.mem_cons_self x xs)
      rw [specUniqueAux, if_neg hx]
      have hnd' := (List.nodup_cons.mp hnd)
      refine congrArg (x :: ·) (ih (x :: seen) ?_ hnd'.2)
      intro y hy
      simp only [List.mem_cons, not_or]
      exact ⟨fun hyx => hnd'.1 (hyx ▸ hy), hsee y (List.mem_cons_of_mem _ hy)⟩

/-- C3 counterexample: on a list with a duplicate, `IntersectIndices(a, a)`
keeps both copies, so it differs from `unique(a)`. -/
theorem c3_intersect_counterexample :
    IntersectIndices [1, 1] [1, 1] ≠ specUnique [1, 1] := by decide

/-- C3 (amended): `IntersectIndices(a, a) = a` (duplicates of `a` are kept);
it equals `unique(a)` exactly when `a` has no duplicates; and
`IntersectIndices(a, []) = []`. -/
theorem c3_intersect_spec (a : List Int) :
    IntersectIndices a a = a ∧ IntersectIndices a [] = [] ∧
      (a.Nodup → IntersectIndices a a = specUnique a) := by
  have hself : IntersectIndices a a = a := by
    apply List.filter_eq_self.mpr
    intro x hx
    simpa using hx
  refine ⟨hself, by simp [IntersectIndices], fun hnd => ?_⟩
  rw [hself, specUnique, specUniqueAux_of_nodup a [] (by simp) hnd]

/-- C3 witness: the amended theorem applied at `a = [1, 2]`, discharging the
duplicate-freeness hypothesis of the third conjunct. -/
theorem c3_intersect_spec_witness :
    ([1, 2] : List Int).Nodup ∧ IntersectIndices [1, 2] [1, 2] = specUnique [1, 2] :=
  ⟨by decide, (c3_intersect_spec [1, 2]).2.2 (by decide)⟩

/-! ## MassFlattener (FlatMass.cc)

The class owns a `TH1F` with `int(mass_max / 5)` equal bins over
`[0, mass_max]`; bin 0 is the underflow bin and bin `nbins + 1` the overflow
bin.  We model the immutable part (bin count, mass range) as `FlatConfig` and
the mutable bin contents as a function `Nat → Nat` (`TH1F` stores float
contents incremented by `Fill`; exact counters are faithful for realistic
counts). -/

/-- The selector configuration fixed at construction: number of in-range bins
and the maximum mass. -/
structure FlatConfig where
  nbins : Nat
  massMax : ℚ

/-- The `MassFlattener(mass_max)` constructor: `static_cast<int>(mass_max/5)`
bins over `[0, mass_max]` (truncation = floor for the positive `mass_max` the
class is built for). -/
def mkFlattener (massMax : ℚ) : FlatConfig :=
  ⟨(⌊massMax / 5⌋).toNat, massMax⟩

/-- Embedding of `TH1F::FindBin` for a histogram with `cfg.nbins` equal bins on
`[0, cfg.massMax]`: 0 for underflow, `nbins + 1` for overflow (the upper edge
belongs to overflow), else `1 + ⌊x·nbins/massMax⌋`. -/
def findBin (cfg : FlatConfig) (x : ℚ) : Nat :=
  if x < 0 then 0
  else if cfg.massMax ≤ x then cfg.nbins + 1
  else (⌊x * cfg.nbins / cfg.massMax⌋).toNat + 1

/-- The fresh histogram contents: every bin is empty. -/
def zeroBins : Nat → Nat := fun _ => 0

/-- Embedding of `TH1F::Fill(mass)` restricted to its effect on contents: increment the
bin `Fill` recomputes for `mass` (the same bin `FindBin` returned). -/
def bumpBin (bins : Nat → Nat) (b : Nat) : Nat → Nat :=
  fun k => if k = b then bins k + 1 else bins k

/-- The loop body of `MassFlattener::SelectJetsFlatMass` over a list of
candidate indices: a jet passing the three cuts is skipped iff its bin is
within `[0, nbins]` (not overflow) and that bin already holds at least
`max_count` entries; otherwise it is appended and its bin incremented. -/
def flatLoop (cfg : FlatConfig) (pt eta mass : List ℚ) (ptCut etaCut massCut : ℚ)
    (maxCount : Int) : List Nat → (Nat → Nat) → List Nat × (Nat → Nat)
  | [], bins => ([], bins)
  | i :: rest, bins =>
      if passCuts pt eta mass ptCut etaCut massCut i then
        let bin := findBin cfg (mass.getD i 0)
        if bin ≤ cfg.nbins ∧ maxCount ≤ (bins bin : ℤ) then
          flatLoop cfg pt eta mass ptCut etaCut massCut maxCount rest bins
        else
          let r := flatLoop cfg pt eta mass ptCut etaCut massCut maxCount rest
            (bumpBin bins bin)
          (i :: r.1, r.2)
      else flatLoop cfg pt eta mass ptCut etaCut massCut maxCount rest bins

/-- Embedding of `MassFlattener::SelectJetsFlatMass`: scan jets `0 .. pt.size()-1` against
the histogram state, returning the accepted indices and the updated state. -/
def SelectJetsFlatMass (cfg : FlatConfig) (bins : Nat → Nat)
    (pt eta mass : List ℚ) (ptCut etaCut massCut : ℚ) (maxCount : Int) :
    List Nat × (Nat → Nat) :=
  flatLoop cfg pt eta mass ptCut etaCut massCut maxCount (List.range pt.length) bins

lemma flatLoop_sublist_filter (cfg : FlatConfig) (pt eta mass : List ℚ)
    (c1 c2 c3 : ℚ) (mc : Int) :
    ∀ (idxs : List Nat) (bins : Nat → Nat),
      (flatLoop cfg pt eta mass c1 c2 c3 mc idxs bins).1.Sublist
        (idxs.filter (passCuts pt eta mass c1 c2 c3)) := by
  intro idxs
  induction idxs with
  | nil => intro bins; simp [flatLoop]
  | cons i rest ih =>
      intro bins
      by_cases hp : passCuts pt eta mass c1 c2 c3 i
      · rw [flatLoop, if_pos hp, List.filter_cons_of_pos hp]
        by_cases hc : findBin cfg (mass.getD i 0) ≤ cfg.nbins ∧
            mc ≤ ((bins (findBin cfg (mass.getD i 0)) : Int))
        · rw [if_pos hc]
          exact (ih bins).cons i
        · rw [if_neg hc]
          exact (ih (bumpBin bins (findBin cfg (mass.getD i 0)))).cons₂ i
      · rw [flatLoop, if_neg hp, List.filter_cons_of_neg hp]
        exact ih bins

/-- C10: whatever the histogram state, the output of `SelectJetsFlatMass` is a
subsequence of the stateless `SelectJets` output at the same cuts: flattening
only removes indices, never adds or reorders them. -/
theorem c10_flatMass_refines_selectJets (cfg : FlatConfig) (bins : Nat → Nat)
    (pt eta mass : List ℚ) (ptCut etaCut massCut : ℚ) (maxCount : Int) :
    (SelectJetsFlatMass cfg bins pt eta mass ptCut etaCut massCut maxCount).1.Sublist
      (SelectJets pt eta mass ptCut etaCut massCut) :=
  flatLoop_sublist_filter cfg pt eta mass ptCut etaCut massCut maxCount
    (List.range pt.length) bins

lemma flatLoop_mem_overflow (cfg : FlatConfig) (pt eta mass : List ℚ)
    (c1 c2 c3 : ℚ) (mc : Int) (i : Nat)
    (hp : passCuts pt eta mass c1 c2 c3 i = true)
    (hof : cfg.nbins < findBin cfg (mass.getD i 0)) :
    ∀ (idxs : List Nat) (bins : Nat → Nat), i ∈ idxs →
      i ∈ (flatLoop cfg pt eta mass c1 c2 c3 mc idxs bins).1 := by
  intro idxs
  induction idxs with
  | nil => intro bins h; cases h
  | cons j rest ih =>
      intro bins hmem
      rcases List.mem_cons.mp hmem with hj | hj
      · subst hj
        rw [flatLoop, if_pos hp,
          if_neg (fun hc => absurd hc.1 (not_le.mpr hof))]
        exact List.mem_cons_self _ _
      · by_cases hpj : passCuts pt eta mass c1 c2 c3 j
        · rw [flatLoop, if_pos hpj]
          by_cases hc : findBin cfg (mass.getD j 0) ≤ cfg.nbins ∧
              mc ≤ ((bins (findBin cfg (mass.getD j 0)) : Int))
          · rw [if_pos hc]; exact ih bins hj
          · rw [if_neg hc]
            exact List.mem_cons_of_mem _
              (ih (bumpBin bins (findBin cfg (mass.getD j 0))) hj)
        · rw [flatLoop, if_neg hpj]; exact ih bins hj

/-- C7: a jet passing the three cuts whose mass exceeds the configured
maximum falls into the overflow bin and is always accepted, whatever the
histogram state — the overflow bin is never capped. -/
theorem c7_overflow_never_capped (cfg : FlatConfig) (bins : Nat → Nat)
    (pt eta mass : List ℚ) (ptCut etaCut massCut : ℚ) (maxCount : Int) (i : Nat)
    (hlen : i < pt.length)
    (hp : passCuts pt eta mass ptCut etaCut massCut i = true)
    (hmm : 0 ≤ cfg.massMax) (hover : cfg.massMax < mass.getD i 0) :
    i ∈ (SelectJetsFlatMass cfg bins pt eta mass ptCut etaCut massCut maxCount).1 := by
  have hbin : findBin cfg (mass.getD i 0) = cfg.nbins + 1 := by
    rw [findBin, if_neg (not_lt.mpr (le_trans hmm (le_of_lt hover))),
      if_pos (le_of_lt hover)]
  exact flatLoop_mem_overflow cfg pt eta mass ptCut etaCut massCut maxCount i hp
    (by rw [hbin]; exact Nat.lt_succ_self _) (List.range pt.length) bins
    (List.mem_range.mpr hlen)

/-- C7 witness: a jet of mass 50 against a flattener configured with
`mass_max = 10` (2 bins) and `max_count = 0` is still accepted. -/
theorem c7_overflow_never_capped_witness :
    (0 : Nat) < ([100] : List ℚ).length ∧
      passCuts [100] [0] [50] 30 2.4 20 0 = true ∧
      0 ≤ (mkFlattener 10).massMax ∧
      (mkFlattener 10).massMax < ([50] : List ℚ).getD 0 0 ∧
      0 ∈ (SelectJetsFlatMass (mkFlattener 10) zeroBins [100] [0] [50] 30 2.4 20 0).1 := by
  refine ⟨by simp, ?_, by norm_num [mkFlattener], by norm_num [mkFlattener], ?_⟩
  · simp only [passCuts, decide_eq_true_eq]
    norm_num
  · exact c7_overflow_never_capped (mkFlattener 10) zeroBins [100] [0] [50] 30 2.4 20 0 0
      (by simp)
      (by simp only [passCuts, decide_eq_true_eq]; norm_num)
      (by norm_num [mkFlattener]) (by norm_num [mkFlattener])

/-- The arguments of one `SelectJetsFlatMass` call (the per-bin cap
`max_count` is fixed across the whole sequence, so it is kept outside). -/
structure FlatCall where
  pt : List ℚ
  eta : List ℚ
  mass : List ℚ
  ptCut : ℚ
  etaCut : ℚ
  massCut : ℚ

/-- Histogram state after a sequence of `SelectJetsFlatMass` calls on one
flattener instance. -/
def runCalls (cfg : FlatConfig) (mc : Int) : List FlatCall → (Nat → Nat) → (Nat → Nat)
  | [], bins => bins
  | c :: rest, bins => runCalls cfg mc rest
      (SelectJetsFlatMass cfg bins c.pt c.eta c.mass c.ptCut c.etaCut c.massCut mc).2

/-- Cumulative number of accepted (output) entries whose mass falls into bin
`b`, summed over a sequence of calls on one flattener instance. -/
def runCountInBin (cfg : FlatConfig) (mc : Int) (b : Nat) :
    List FlatCall → (Nat → Nat) → Nat
  | [], _ => 0
  | c :: rest, bins =>
      ((SelectJetsFlatMass cfg bins c.pt c.eta c.mass c.ptCut c.etaCut c.massCut mc).1.filter
          (fun i => decide (findBin cfg (c.mass.getD i 0) = b))).length
        + runCountInBin cfg mc b rest
            (SelectJetsFlatMass cfg bins c.pt c.eta c.mass c.ptCut c.etaCut c.massCut mc).2

lemma flatLoop_bins_accounting (cfg : FlatConfig) (pt eta mass : List ℚ)
    (c1 c2 c3 : ℚ) (mc : Int) (b : Nat) :
    ∀ (idxs : List Nat) (bins : Nat → Nat),
      (flatLoop cfg pt eta mass c1 c2 c3 mc idxs bins).2 b =
        bins b + ((flatLoop cfg pt eta mass c1 c2 c3 mc idxs bins).1.filter
          (fun i => decide (findBin cfg (mass.getD i 0) = b))).length := by
  intro idxs
  induction idxs with
  | nil => intro bins; simp [flatLoop]
  | cons i rest ih =>
      intro bins
      by_cases hp : passCuts pt eta mass c1 c2 c3 i
      · rw [flatLoop, if_pos hp]
        by_cases hc : findBin cfg (mass.getD i 0) ≤ cfg.nbins ∧
            mc ≤ ((bins (findBin cfg (mass.getD i 0)) : Int))
        · rw [if_pos hc]; exact ih bins
        · rw [if_neg hc]
          have h := ih (bumpBin bins (findBin cfg (mass.getD i 0)))
          by_cases hb : findBin cfg (mass.getD i 0) = b
          · have h1 : ∀ l : List Nat,
                (List.filter (fun j => decide (findBin cfg (mass.getD j 0) = b))
                  (i :: l)).length =
                (List.filter (fun j => decide (findBin cfg (mass.getD j 0) = b))
                  l).length + 1 := by
              intro l
              rw [List.filter_cons]
              simp only [decide_eq_true_eq]
              rw [if_pos hb, List.length_cons]
            have h2 : bumpBin bins (findBin cfg (mass.getD i 0)) b = bins b + 1 := by
              simp only [bumpBin]
              rw [if_pos hb.symm]
            rw [h, h1, h2]
            omega
          · have h1 : ∀ l : List Nat,
                List.filter (fun j => decide (findBin cfg (mass.getD j 0) = b))
                  (i :: l) =
                List.filter (fun j => decide (findBin cfg (mass.getD j 0) = b)) l := by
              intro l
              rw [List.filter_cons]
              simp only [decide_eq_true_eq]
              rw [if_neg hb]
            have h2 : bumpBin bins (findBin cfg (mass.getD i 0)) b = bins b := by
              simp only [bumpBin]
              exact if_neg (fun h' => hb h'.symm)
            rw [h, h1, h2]
      · rw [flatLoop, if_neg hp]; exact ih bins

lemma flatLoop_bins_capped (cfg : FlatConfig) (pt eta mass : List ℚ)
    (c1 c2 c3 : ℚ) (mc : Int) (b : Nat) (hb : b ≤ cfg.nbins) :
    ∀ (idxs : List Nat) (bins : Nat → Nat), (bins b : ℤ) ≤ mc →
      ((flatLoop cfg pt eta mass c1 c2 c3 mc idxs bins).2 b : ℤ) ≤ mc := by
  intro idxs
  induction idxs with
  | nil => intro bins h; exact h
  | cons i rest ih =>
      intro bins h
      by_cases hp : passCuts pt eta mass c1 c2 c3 i
      · rw [flatLoop, if_pos hp]
        by_cases hc : findBin cfg (mass.getD i 0) ≤ cfg.nbins ∧
            mc ≤ ((bins (findBin cfg (mass.getD i 0)) : Int))
        · rw [if_pos hc]; exact ih bins h
        · rw [if_neg hc]
          refine ih (bumpBin bins (findBin cfg (mass.getD i 0))) ?_
          rw [bumpBin]
          by_cases hbb : b = findBin cfg (mass.getD i 0)
          · rw [if_pos hbb]
            have hnot : ¬ mc ≤ ((bins (findBin cfg (mass.getD i 0)) : Int)) :=
              fun hle => hc ⟨hbb ▸ hb, hle⟩
            rw [← hbb] at hnot
            push_cast
            omega
          · rw [if_neg hbb]; exact h
      · rw [flatLoop, if_neg hp]; exact ih bins h

lemma runCalls_accounting (cfg : FlatConfig) (mc : Int) (b : Nat) :
    ∀ (calls : List FlatCall) (bins : Nat → Nat),
      bins b + runCountInBin cfg mc b calls bins = runCalls cfg mc calls bins b := by
  intro calls
  induction calls with
  | nil => intro bins; simp [runCountInBin, runCalls]
  | cons c rest ih =>
      intro bins
      rw [runCountInBin, runCalls, ← ih]
      simp only [SelectJetsFlatMass]
      rw [flatLoop_bins_accounting cfg c.pt c.eta c.mass c.ptCut c.etaCut c.massCut mc b
        (List.range c.pt.length) bins]
      omega

lemma runCalls_capped (cfg : FlatConfig) (mc : Int) (b : Nat) (hb : b ≤ cfg.nbins) :
    ∀ (calls : List FlatCall) (bins : Nat → Nat), (bins b : ℤ) ≤ mc →
      ((runCalls cfg mc calls bins) b : ℤ) ≤ mc := by
  intro calls
  induction calls with
  | nil => intro bins h; exact h
  | cons c rest ih =>
      intro bins h
      rw [runCalls]
      exact ih _ (flatLoop_bins_capped cfg c.pt c.eta c.mass c.ptCut c.etaCut c.massCut
        mc b hb (List.range c.pt.length) bins h)

/-- C2: on a flattener instance built with a fixed `mass_max` (5-unit bins)
and fresh (empty) histogram state, for every sequence of `SelectJetsFlatMass`
calls with a fixed nonnegative `max_count` and every bin within the configured
mass range `[0, mass_max]`, the cumulative number of accepted output entries
whose mass falls in that bin never exceeds `max_count`. -/
theorem c2_flattening_cap (massMax : ℚ) (mc : Int) (calls : List FlatCall) (b : Nat)
    (hmc : 0 ≤ mc) (_hb1 : 1 ≤ b) (hb2 : b ≤ (mkFlattener massMax).nbins) :
    ((runCountInBin (mkFlattener massMax) mc b calls zeroBins : Nat) : ℤ) ≤ mc := by
  have hacc := runCalls_accounting (mkFlattener massMax) mc b calls zeroBins
  have hcap := runCalls_capped (mkFlattener massMax) mc b hb2 calls zeroBins
    (by simp [zeroBins]; exact hmc)
  rw [← hacc] at hcap
  simpa [zeroBins] using hcap

/-- C2 witness: two calls, each offering one jet of mass 3 (bin 1 of a
2-bin histogram over `[0, 10]`), with `max_count = 1`: the cumulative count in
bin 1 stays ≤ 1. -/
theorem c2_flattening_cap_witness :
    0 ≤ (1 : Int) ∧ 1 ≤ 1 ∧ 1 ≤ (mkFlattener 10).nbins ∧
      ((runCountInBin (mkFlattener 10) 1 1
        [⟨[100], [0], [3], 30, 2.4, 1⟩, ⟨[100], [0], [3], 30, 2.4, 1⟩]
        zeroBins : Nat) : ℤ) ≤ 1 :=
  ⟨by decide, le_refl _, by norm_num [mkFlattener],
    c2_flattening_cap 10 1
      [⟨[100], [0], [3], 30, 2.4, 1⟩, ⟨[100], [0], [3], 30, 2.4, 1⟩] 1
      (by norm_num) (le_refl _) (by norm_num [mkFlattener])⟩

/-! ## GetJetMatchIndexForPFCands (JetMatching.cc) -/

/-- The innermost loop of `GetJetMatchIndexForPFCands`: first position `k`
with `sel[k] = x`, or none (in which case nothing is pushed). -/
def findPosIn (sel : List Int) (x : Int) : Option Nat :=
  match sel with
  | [] => none
  | y :: rest => if y = x then some 0 else (findPosIn rest x).map (· + 1)

/-- The middle loop of `GetJetMatchIndexForPFCands`: scan the candidate
records (pairs `(pFCandsIdx[j], jetIdx[j])` in scan order) for the first one
whose candidate index equals `p` and return its owning jet index. -/
def findJetFor (records : List (Int × Int)) (p : Int) : Option Int :=
  match records with
  | [] => none
  | (cand, jet) :: rest => if cand = p then some jet else findJetFor rest p

/-- Embedding of `GetJetMatchIndexForPFCands` from `JetMatching.cc`: for each selected
candidate index in order, find the first record owning it, then the position
of the owning jet inside `selected_jet_indices`; emit nothing on either miss. -/
def GetJetMatchIndexForPFCands (FatJetPFCands_jetIdx FatJetPFCands_pFCandsIdx
    selected_jet_indices selected_pfcand_indices : List Int) : List Nat :=
  match selected_pfcand_indices with
  | [] => []
  | p :: rest =>
      let tail := GetJetMatchIndexForPFCands FatJetPFCands_jetIdx
        FatJetPFCands_pFCandsIdx selected_jet_indices rest
      match findJetFor (FatJetPFCands_pFCandsIdx.zip FatJetPFCands_jetIdx) p with
      | none => tail
      | some jetIdx =>
          match findPosIn selected_jet_indices jetIdx with
          | none => tail
          | some k => k :: tail

lemma findPosIn_lt_length (sel : List Int) (x : Int) (k : Nat) :
    findPosIn sel x = some k → k < sel.length := by
  induction sel generalizing k with
  | nil => intro h; cases h
  | cons y rest ih =>
      intro h
      rw [findPosIn] at h
      by_cases hy : y = x
      · rw [if_pos hy] at h
        cases h
        exact Nat.succ_pos _
      · rw [if_neg hy] at h
        cases hm : findPosIn rest x with
        | none => rw [hm] at h; cases h
        | some k' =>
            rw [hm] at h
            cases h
            exact Nat.succ_lt_succ (ih k' hm)

/-- C8: the output of `GetJetMatchIndexForPFCands` is exactly the
`filterMap` over the input candidate list (in given order) of "first owning
record, then first position in the selected-jet list", so a failed lookup
emits nothing; consequently the output is never longer than the input and
every emitted entry is a valid position into `selected_jet_indices` (no
sentinel values are inserted). -/
theorem c8_jetMatchIndex_spec (jetIdx candIdx selJets selCands : List Int) :
    GetJetMatchIndexForPFCands jetIdx candIdx selJets selCands =
      selCands.filterMap
        (fun p => (findJetFor (candIdx.zip jetIdx) p).bind (findPosIn selJets)) ∧
    (GetJetMatchIndexForPFCands jetIdx candIdx selJets selCands).length ≤
      selCands.length ∧
    (∀ k ∈ GetJetMatchIndexForPFCands jetIdx candIdx selJets selCands,
      k < selJets.length) := by
  have hmain : GetJetMatchIndexForPFCands jetIdx candIdx selJets selCands =
      selCands.filterMap
        (fun p => (findJetFor (candIdx.zip jetIdx) p).bind (findPosIn selJets)) := by
    induction selCands with
    | nil => rfl
    | cons p rest ih =>
        rw [GetJetMatchIndexForPFCands, List.filterMap_cons]
        cases hj : findJetFor (candIdx.zip jetIdx) p with
        | none => simpa [hj] using ih
        | some jv =>
            cases hk : findPosIn selJets jv with
            | none => simpa [hj, hk] using ih
            | some k => simpa [hj, hk] using ih
  refine ⟨hmain, ?_, ?_⟩
  · rw [hmain]
    exact List.length_filterMap_le _ _
  · intro k hk
    rw [hmain] at hk
    rcases List.mem_filterMap.mp hk with ⟨p, _, hp⟩
    cases hj : findJetFor (candIdx.zip jetIdx) p with
    | none => rw [hj] at hp; cases hp
    | some jv =>
        rw [hj] at hp
        exact findPosIn_lt_length selJets jv k hp

/-- C8 witness: the valid-position conjunct applied at a one-record input
(candidate 7 owned by jet 2, which sits at position 0 of the selected-jet
list); the single emitted entry is a position inside that list. -/
theorem c8_jetMatchIndex_spec_witness :
    0 ∈ GetJetMatchIndexForPFCands [2] [7] [2] [7] ∧
      0 < ([2] : List Int).length :=
  ⟨by decide, (c8_jetMatchIndex_spec [2] [7] [2] [7]).2.2 0 (by decide)⟩

/-! ## GenMatchSelectJets (JetMatching.cc) -/

/-- The squared (Δη, wrapped Δφ) distance used by both loops of
`GenMatchSelectJets`: `dEta*dEta + dPhi*dPhi` with `dPhi = DeltaPhi(...)`. -/
def dist2 (pi eta1 phi1 eta2 phi2 : ℚ) : ℚ :=
  (eta1 - eta2) * (eta1 - eta2) + DeltaPhi pi phi1 phi2 * DeltaPhi pi phi1 phi2

/-- Phase 1 of `GenMatchSelectJets` over the position-aligned generator
records `(pdgId, statusFlags, eta, phi)`: keep a particle iff it is a final
copy (status bit 13), `|pdgId| == matchID`, and no previously kept particle
lies within squared distance `< dR2`; kept coordinates accumulate in scan
order (`emplace_back`). -/
def phase1 (pi : ℚ) (matchID : Int) (dR2 : ℚ) :
    List (Int × Nat × ℚ × ℚ) → List (ℚ × ℚ) → List (ℚ × ℚ)
  | [], acc => acc
  | (pdg, fl, eta, phi) :: rest, acc =>
      if fl.testBit 13 = false then phase1 pi matchID dR2 rest acc
      else if |pdg| ≠ matchID then phase1 pi matchID dR2 rest acc
      else if acc.any (fun c => decide (dist2 pi eta phi c.1 c.2 < dR2)) then
        phase1 pi matchID dR2 rest acc
      else phase1 pi matchID dR2 rest (acc ++ [(eta, phi)])

/-- Phase 2 of `GenMatchSelectJets` over jets `(index, eta, phi)`: keep a
jet's index iff some retained generator coordinate lies within squared
distance `< dR2` (the inner loop's `break` is first-match short-circuit). -/
def phase2 (pi : ℚ) (dR2 : ℚ) (coords : List (ℚ × ℚ)) :
    List (Nat × ℚ × ℚ) → List Nat
  | [] => []
  | (j, jeta, jphi) :: rest =>
      if coords.any (fun c => decide (dist2 pi jeta jphi c.1 c.2 < dR2)) then
        j :: phase2 pi dR2 coords rest
      else phase2 pi dR2 coords rest

/-- Embedding of `GenMatchSelectJets` from `JetMatching.cc`: phase 1 then phase 2, with
`dR2 = dR*dR` computed once. -/
def GenMatchSelectJets (pi : ℚ) (jet_eta jet_phi : List ℚ) (gen_pdgId : List Int)
    (gen_statusFlags : List Nat) (gen_eta gen_phi : List ℚ)
    (matchID : Int) (dR : ℚ) : List Nat :=
  let dR2 := dR * dR
  let coords := phase1 pi matchID dR2
    (gen_pdgId.zip (gen_statusFlags.zip (gen_eta.zip gen_phi))) []
  phase2 pi dR2 coords ((List.range jet_eta.length).zip (jet_eta.zip jet_phi))

lemma dist2_comm (pi e1 p1 e2 p2 : ℚ) :
    dist2 pi e1 p1 e2 p2 = dist2 pi e2 p2 e1 p1 := by
  simp only [dist2, DeltaPhi]
  rw [abs_sub_comm p1 p2]
  ring

lemma phase1_pairwise (pi : ℚ) (matchID : Int) (dR2 : ℚ) :
    ∀ (gens : List (Int × Nat × ℚ × ℚ)) (acc : List (ℚ × ℚ)),
      acc.Pairwise (fun p q => ¬ dist2 pi p.1 p.2 q.1 q.2 < dR2) →
      (phase1 pi matchID dR2 gens acc).Pairwise
        (fun p q => ¬ dist2 pi p.1 p.2 q.1 q.2 < dR2) := by
  intro gens
  induction gens with
  | nil => intro acc h; exact h
  | cons g rest ih =>
      obtain ⟨pdg, fl, eta, phi⟩ := g
      intro acc h
      rw [phase1]
      by_cases h13 : fl.testBit 13 = false
      · rw [if_pos h13]; exact ih acc h
      · rw [if_neg h13]
        by_cases hid : |pdg| ≠ matchID
        · rw [if_pos hid]; exact ih acc h
        · rw [if_neg hid]
          by_cases hiso : acc.any (fun c => decide (dist2 pi eta phi c.1 c.2 < dR2))
          · rw [if_pos hiso]; exact ih acc h
          · rw [if_neg hiso]
            refine ih (acc ++ [(eta, phi)]) ?_
            rw [List.pairwise_append]
            refine ⟨h, List.pairwise_singleton _ _, ?_⟩
            intro p hp q hq
            rw [List.mem_singleton] at hq
            subst hq
            have := fun hlt => hiso (List.any_eq_true.mpr
              ⟨p, hp, decide_eq_true hlt⟩)
            rw [dist2_comm]
            exact this

lemma phase1_mem (pi : ℚ) (matchID : Int) (dR2 : ℚ) :
    ∀ (gens : List (Int × Nat × ℚ × ℚ)) (acc : List (ℚ × ℚ)) (c : ℚ × ℚ),
      c ∈ phase1 pi matchID dR2 gens acc →
      c ∈ acc ∨ ∃ g ∈ gens, g.2.1.testBit 13 = true ∧ |g.1| = matchID ∧
        c = (g.2.2.1, g.2.2.2) := by
  intro gens
  induction gens with
  | nil => intro acc c h; exact Or.inl h
  | cons g rest ih =>
      obtain ⟨pdg, fl, eta, phi⟩ := g
      intro acc c h
      rw [phase1] at h
      by_cases h13 : fl.testBit 13 = false
      · rw [if_pos h13] at h
        rcases ih acc c h with hl | ⟨g', hg', hrest⟩
        · exact Or.inl hl
        · exact Or.inr ⟨g', List.mem_cons_of_mem _ hg', hrest⟩
      · rw [if_neg h13] at h
        by_cases hid : |pdg| ≠ matchID
        · rw [if_pos hid] at h
          rcases ih acc c h with hl | ⟨g', hg', hrest⟩
          · exact Or.inl hl
          · exact Or.inr ⟨g', List.mem_cons_of_mem _ hg', hrest⟩
        · rw [if_neg hid] at h
          by_cases hiso : acc.any (fun c => decide (dist2 pi eta phi c.1 c.2 < dR2))
          · rw [if_pos hiso] at h
            rcases ih acc c h with hl | ⟨g', hg', hrest⟩
            · exact Or.inl hl
            · exact Or.inr ⟨g', List.mem_cons_of_mem _ hg', hrest⟩
          · rw [if_neg hiso] at h
            rcases ih (acc ++ [(eta, phi)]) c h with hl | ⟨g', hg', hrest⟩
            · rcases List.mem_append.mp hl with hl' | hl'
              · exact Or.inl hl'
              · rw [List.mem_singleton] at hl'
                refine Or.inr ⟨(pdg, fl, eta, phi), List.mem_cons_self _ _, ?_, ?_, ?_⟩
                · exact Bool.not_eq_false _ |>.mp h13
                · exact not_not.mp hid
                · exact hl'
            · exact Or.inr ⟨g', List.mem_cons_of_mem _ hg', hrest⟩

lemma phase2_eq_filter_map (pi dR2 : ℚ) (coords : List (ℚ × ℚ)) :
    ∀ (l : List (Nat × ℚ × ℚ)),
      phase2 pi dR2 coords l =
        (l.filter (fun jt =>
          coords.any (fun c => decide (dist2 pi jt.2.1 jt.2.2 c.1 c.2 < dR2)))).map
          Prod.fst := by
  intro l
  induction l with
  | nil => rfl
  | cons jt rest ih =>
      obtain ⟨j, jeta, jphi⟩ := jt
      rw [phase2, List.filter_cons]
      by_cases hc : coords.any (fun c => decide (dist2 pi jeta jphi c.1 c.2 < dR2))
      · rw [if_pos hc, if_pos hc, List.map_cons, ih]
      · rw [if_neg hc, if_neg hc, ih]

lemma zip_map_fst_sublist {α β : Type} :
    ∀ (l1 : List α) (l2 : List β), ((l1.zip l2).map Prod.fst).Sublist l1 := by
  intro l1
  induction l1 with
  | nil => intro l2; simp
  | cons x xs ih =>
      intro l2
      cases l2 with
      | nil => simp
      | cons y ys =>
          rw [List.zip_cons_cons, List.map_cons]
          exact (ih ys).cons₂ x

/-- C5: `GenMatchSelectJets` works in two phases.  The retained phase-1
coordinates are pairwise no closer than `dR²` (greedy isolation) and each
comes from a generator record with the final-copy bit and `|pdgId| = matchID`;
the output is exactly the jets (in ascending scan order, hence sorted) lying
within squared distance `< dR²` of at least one retained coordinate. -/
theorem c5_genMatchSelectJets_spec (pi : ℚ) (jet_eta jet_phi : List ℚ)
    (gen_pdgId : List Int) (gen_statusFlags : List Nat) (gen_eta gen_phi : List ℚ)
    (matchID : Int) (dR : ℚ) :
    (phase1 pi matchID (dR * dR)
        (gen_pdgId.zip (gen_statusFlags.zip (gen_eta.zip gen_phi))) []).Pairwise
      (fun p q => ¬ dist2 pi p.1 p.2 q.1 q.2 < dR * dR) ∧
    (∀ c ∈ phase1 pi matchID (dR * dR)
        (gen_pdgId.zip (gen_statusFlags.zip (gen_eta.zip gen_phi))) [],
      ∃ g ∈ gen_pdgId.zip (gen_statusFlags.zip (gen_eta.zip gen_phi)),
        g.2.1.testBit 13 = true ∧ |g.1| = matchID ∧ c = (g.2.2.1, g.2.2.2)) ∧
    GenMatchSelectJets pi jet_eta jet_phi gen_pdgId gen_statusFlags gen_eta gen_phi
        matchID dR =
      (((List.range jet_eta.length).zip (jet_eta.zip jet_phi)).filter
        (fun jt => (phase1 pi matchID (dR * dR)
            (gen_pdgId.zip (gen_statusFlags.zip (gen_eta.zip gen_phi))) []).any
          (fun c => decide (dist2 pi jt.2.1 jt.2.2 c.1 c.2 < dR * dR)))).map
        Prod.fst ∧
    (GenMatchSelectJets pi jet_eta jet_phi gen_pdgId gen_statusFlags gen_eta gen_phi
        matchID dR).Pairwise (· < ·) := by
  refine ⟨phase1_pairwise pi matchID (dR * dR) _ [] (List.Pairwise.nil), ?_, ?_, ?_⟩
  · intro c hc
    rcases phase1_mem pi matchID (dR * dR) _ [] c hc with hl | hr
    · cases hl
    · exact hr
  · rw [GenMatchSelectJets]
    exact phase2_eq_filter_map _ _ _ _
  · rw [GenMatchSelectJets, phase2_eq_filter_map]
    refine (List.pairwise_lt_range jet_eta.length).sublist ?_
    exact ((List.filter_sublist _).map Prod.fst).trans
      (zip_map_fst_sublist (List.range jet_eta.length) (jet_eta.zip jet_phi))

/-- C5 witness: the only-from-qualifying-records conjunct applied at one
generator particle (pdgId 6, status bit 13 set, at the origin) with
`matchID = 6`, `dR = 1`. -/
theorem c5_genMatchSelectJets_spec_witness :
    ((0 : ℚ), (0 : ℚ)) ∈ phase1 mPI 6 (1 * 1)
        (([6] : List Int).zip (([8192] : List Nat).zip
          (([0] : List ℚ).zip ([0] : List ℚ)))) [] ∧
      ∃ g ∈ ([6] : List Int).zip (([8192] : List Nat).zip
          (([0] : List ℚ).zip ([0] : List ℚ))),
        g.2.1.testBit 13 = true ∧ |g.1| = 6 ∧
          ((0 : ℚ), (0 : ℚ)) = (g.2.2.1, g.2.2.2) := by
  have hmem : ((0 : ℚ), (0 : ℚ)) ∈ phase1 mPI 6 (1 * 1)
      (([6] : List Int).zip (([8192] : List Nat).zip
        (([0] : List ℚ).zip ([0] : List ℚ)))) [] := by
    simp [phase1, Nat.testBit, Nat.shiftRight]
  exact ⟨hmem,
    (c5_genMatchSelectJets_spec mPI [] [] [6] [8192] [0] [0] 6 1).2.1
      ((0 : ℚ), (0 : ℚ)) hmem⟩

/-! ## Ancestry predicates and classifier (top_gen_matching.cc)

Each predicate loops `i = 0 .. nGenPart-1` and, for every particle, reads
`GenPart_pdgId[motherIdx]` with `motherIdx = GenPart_genPartIdxMother[i]`
*before* any guard; the only guard is `motherPid == -1` (a test on the
mother's PDG ID, not on the mother index).  When `motherIdx` is the root
sentinel `-1` this is an unchecked out-of-bounds read; its unspecified result
is the explicit parameter `oobI` (similarly `oobQ` for float-array reads).
`deltaR(...) < 0.8` is embedded as `deltaRsq(...) < 16/25`. -/

/-- Loop body of `bFromTopinJet`: return 1 on the first particle with
`|pdgId| == 5`, mother `|pdgId| == 6` and `deltaR < 0.8` to the jet; the
`continue` fires on `motherPid == -1`. -/
def bLoop (oobI : Int) (oobQ pi jphi jeta : ℚ) (gphi geta : List ℚ)
    (gpdg gmother : List Int) : List Nat → Int
  | [] => 0
  | i :: rest =>
      let pid := gpdg.getD i oobI
      let motherIdx := gmother.getD i oobI
      let motherPid := getI gpdg oobI motherIdx
      if motherPid = -1 then bLoop oobI oobQ pi jphi jeta gphi geta gpdg gmother rest
      else if |pid| = 5 ∧ |motherPid| = 6 ∧
          deltaRsq pi (geta.getD i oobQ) (gphi.getD i oobQ) jeta jphi < 16/25 then 1
      else bLoop oobI oobQ pi jphi jeta gphi geta gpdg gmother rest

/-- Embedding of `bFromTopinJet` from `top_gen_matching.cc`. -/
def bFromTopinJet (oobI : Int) (oobQ pi jphi jeta : ℚ) (nGenPart : Nat)
    (gphi geta : List ℚ) (gpdg gmother : List Int) : Int :=
  bLoop oobI oobQ pi jphi jeta gphi geta gpdg gmother (List.range nGenPart)

/-- Loop body of `bFromTopBothinJet`: as `bLoop`, additionally requiring the
mother particle itself within `deltaR < 0.8` of the jet (reading the mother's
coordinates at `motherIdx`). -/
def bbLoop (oobI : Int) (oobQ pi jphi jeta : ℚ) (gphi geta : List ℚ)
    (gpdg gmother : List Int) : List Nat → Int
  | [] => 0
  | i :: rest =>
      let pid := gpdg.getD i oobI
      let motherIdx := gmother.getD i oobI
      let motherPid := getI gpdg oobI motherIdx
      if motherPid = -1 then bbLoop oobI oobQ pi jphi jeta gphi geta gpdg gmother rest
      else if |pid| = 5 ∧ |motherPid| = 6 ∧
          deltaRsq pi (geta.getD i oobQ) (gphi.getD i oobQ) jeta jphi < 16/25 ∧
          deltaRsq pi (getQ geta oobQ motherIdx) (getQ gphi oobQ motherIdx)
            jeta jphi < 16/25 then 1
      else bbLoop oobI oobQ pi jphi jeta gphi geta gpdg gmother rest

/-- Embedding of `bFromTopBothinJet` from `top_gen_matching.cc`. -/
def bFromTopBothinJet (oobI : Int) (oobQ pi jphi jeta : ℚ) (nGenPart : Nat)
    (gphi geta : List ℚ) (gpdg gmother : List Int) : Int :=
  bbLoop oobI oobQ pi jphi jeta gphi geta gpdg gmother (List.range nGenPart)

/-- Loop body of `qFromWInJet`: return 1 on the first light quark
(`0 < |pdgId| < 6`) with mother `|pdgId| == 24` within `deltaR < 0.8`. -/
def qLoop (oobI : Int) (oobQ pi jphi jeta : ℚ) (gphi geta : List ℚ)
    (gpdg gmother : List Int) : List Nat → Int
  | [] => 0
  | i :: rest =>
      let pid := gpdg.getD i oobI
      let motherIdx := gmother.getD i oobI
      let motherPid := getI gpdg oobI motherIdx
      if motherPid = -1 then qLoop oobI oobQ pi jphi jeta gphi geta gpdg gmother rest
      else if deltaRsq pi (geta.getD i oobQ) (gphi.getD i oobQ) jeta jphi < 16/25 ∧
          |pid| < 6 ∧ |pid| > 0 ∧ |motherPid| = 24 then 1
      else qLoop oobI oobQ pi jphi jeta gphi geta gpdg gmother rest

/-- Embedding of `qFromWInJet` from `top_gen_matching.cc`. -/
def qFromWInJet (oobI : Int) (oobQ pi jphi jeta : ℚ) (nGenPart : Nat)
    (gphi geta : List ℚ) (gpdg gmother : List Int) : Int :=
  qLoop oobI oobQ pi jphi jeta gphi geta gpdg gmother (List.range nGenPart)

/-- Loop body of `qqFromWAllInJet`: count light-quark W daughters with both
daughter and mother within `deltaR < 0.8` (the two counters `nQ` and
`isWInJet` are incremented together, as in the source). -/
def qqLoop (oobI : Int) (oobQ pi jphi jeta : ℚ) (gphi geta : List ℚ)
    (gpdg gmother : List Int) : List Nat → Nat → Nat → Nat × Nat
  | [], nQ, isW => (nQ, isW)
  | i :: rest, nQ, isW =>
      let pid := gpdg.getD i oobI
      let motherIdx := gmother.getD i oobI
      let motherPid := getI gpdg oobI motherIdx
      if motherPid = -1 then
        qqLoop oobI oobQ pi jphi jeta gphi geta gpdg gmother rest nQ isW
      else if deltaRsq pi (geta.getD i oobQ) (gphi.getD i oobQ) jeta jphi < 16/25 ∧
          |pid| < 6 ∧ |pid| > 0 ∧ |motherPid| = 24 ∧
          deltaRsq pi (getQ geta oobQ motherIdx) (getQ gphi oobQ motherIdx)
            jeta jphi < 16/25 then
        qqLoop oobI oobQ pi jphi jeta gphi geta gpdg gmother rest (nQ + 1) (isW + 1)
      else qqLoop oobI oobQ pi jphi jeta gphi geta gpdg gmother rest nQ isW

/-- Embedding of `qqFromWAllInJet` from `top_gen_matching.cc`: 1 iff both counters
exceed 1 (at least two such quarks). -/
def qqFromWAllInJet (oobI : Int) (oobQ pi jphi jeta : ℚ) (nGenPart : Nat)
    (gphi geta : List ℚ) (gpdg gmother : List Int) : Int :=
  let r := qqLoop oobI oobQ pi jphi jeta gphi geta gpdg gmother
    (List.range nGenPart) 0 0
  if r.1 > 1 ∧ r.2 > 1 then 1 else 0

/-- Embedding of `classifyProbeJet` from `top_gen_matching.cc`: evaluate the four
predicates at the probe jet's coordinates, then return 3 / 2 / 1 / 0 by the
source's branch order (C truthiness: a predicate "holds" iff it is nonzero). -/
def classifyProbeJet (oobI : Int) (oobQ pi : ℚ) (fatJetIdx : Int)
    (FatJet_phi FatJet_eta : List ℚ) (nGenPart : Nat) (gphi geta : List ℚ)
    (gpdg gmother : List Int) : Int :=
  let jphi := getQ FatJet_phi oobQ fatJetIdx
  let jeta := getQ FatJet_eta oobQ fatJetIdx
  let btInJet := bFromTopinJet oobI oobQ pi jphi jeta nGenPart gphi geta gpdg gmother
  let bInJet := bFromTopBothinJet oobI oobQ pi jphi jeta nGenPart gphi geta gpdg gmother
  let qInJet := qFromWInJet oobI oobQ pi jphi jeta nGenPart gphi geta gpdg gmother
  let qqWInJet := qqFromWAllInJet oobI oobQ pi jphi jeta nGenPart gphi geta gpdg gmother
  if btInJet ≠ 0 ∧ qqWInJet ≠ 0 then 3
  else if bInJet ≠ 0 ∧ qInJet ≠ 0 then 2
  else if qqWInJet ≠ 0 then 1
  else 0

/-- C1: the ancestry walk does not guard the root sentinel before indexing.
With one generator particle whose `genPartIdxMother` is `-1` (pdgId 5, on top
of the jet), the value of `bFromTopinJet` depends on the unspecified value the
out-of-bounds read `GenPart_pdgId[-1]` returns: junk `6` makes it return 1,
junk `-1` makes it return 0.  The guard `motherPid == -1` tests the mother's
PDG ID after the read, not the mother index before it. -/
theorem c1_sentinel_guard_code_bug :
    bFromTopinJet 6 0 tmathPi 0 0 1 [0] [0] [5] [-1] = 1 ∧
      bFromTopinJet (-1) 0 tmathPi 0 0 1 [0] [0] [5] [-1] = 0 := by
  constructor <;>
    norm_num [bFromTopinJet, bLoop, getI, getQ, deltaRsq, tmathPi, List.range_succ]

lemma bLoop01 (oobI : Int) (oobQ pi jphi jeta : ℚ) (gphi geta : List ℚ)
    (gpdg gmother : List Int) :
    ∀ idxs, bLoop oobI oobQ pi jphi jeta gphi geta gpdg gmother idxs = 0 ∨
      bLoop oobI oobQ pi jphi jeta gphi geta gpdg gmother idxs = 1 := by
  intro idxs
  induction idxs with
  | nil => exact Or.inl rfl
  | cons i rest ih =>
      simp only [bLoop]
      split_ifs
      · exact ih
      · exact Or.inr rfl
      · exact ih

lemma bbLoop01 (oobI : Int) (oobQ pi jphi jeta : ℚ) (gphi geta : List ℚ)
    (gpdg gmother : List Int) :
    ∀ idxs, bbLoop oobI oobQ pi jphi jeta gphi geta gpdg gmother idxs = 0 ∨
      bbLoop oobI oobQ pi jphi jeta gphi geta gpdg gmother idxs = 1 := by
  intro idxs
  induction idxs with
  | nil => exact Or.inl rfl
  | cons i rest ih =>
      simp only [bbLoop]
      split_ifs
      · exact ih
      · exact Or.inr rfl
      · exact ih

lemma qLoop01 (oobI : Int) (oobQ pi jphi jeta : ℚ) (gphi geta : List ℚ)
    (gpdg gmother : List Int) :
    ∀ idxs, qLoop oobI oobQ pi jphi jeta gphi geta gpdg gmother idxs = 0 ∨
      qLoop oobI oobQ pi jphi jeta gphi geta gpdg gmother idxs = 1 := by
  intro idxs
  induction idxs with
  | nil => exact Or.inl rfl
  | cons i rest ih =>
      simp only [qLoop]
      split_ifs
      · exact ih
      · exact Or.inr rfl
      · exact ih

lemma qqFromWAllInJet01 (oobI : Int) (oobQ pi jphi jeta : ℚ) (nGenPart : Nat)
    (gphi geta : List ℚ) (gpdg gmother : List Int) :
    qqFromWAllInJet oobI oobQ pi jphi jeta nGenPart gphi geta gpdg gmother = 0 ∨
      qqFromWAllInJet oobI oobQ pi jphi jeta nGenPart gphi geta gpdg gmother = 1 := by
  simp only [qqFromWAllInJet]
  split_ifs
  · exact Or.inr rfl
  · exact Or.inl rfl

/-- C4: `classifyProbeJet` returns 3 iff both `bFromTopinJet` (the
daughter-only b predicate) and `qqFromWAllInJet` hold; otherwise 2 iff both
`bFromTopBothinJet` (the stricter b-and-mother-in-cone variant) and
`qFromWInJet` hold; otherwise 1 iff `qqFromWAllInJet` holds; otherwise 0 —
in exactly that priority order ("holds" = returns 1; each predicate only ever
returns 0 or 1). -/
theorem c4_classifyProbeJet_spec (oobI : Int) (oobQ pi : ℚ) (fatJetIdx : Int)
    (FatJet_phi FatJet_eta : List ℚ) (nGenPart : Nat) (gphi geta : List ℚ)
    (gpdg gmother : List Int) :
    (classifyProbeJet oobI oobQ pi fatJetIdx FatJet_phi FatJet_eta nGenPart
        gphi geta gpdg gmother = 3 ↔
      (bFromTopinJet oobI oobQ pi (getQ FatJet_phi oobQ fatJetIdx)
          (getQ FatJet_eta oobQ fatJetIdx) nGenPart gphi geta gpdg gmother = 1 ∧
        qqFromWAllInJet oobI oobQ pi (getQ FatJet_phi oobQ fatJetIdx)
          (getQ FatJet_eta oobQ fatJetIdx) nGenPart gphi geta gpdg gmother = 1)) ∧
    (classifyProbeJet oobI oobQ pi fatJetIdx FatJet_phi FatJet_eta nGenPart
        gphi geta gpdg gmother = 2 ↔
      (¬ (bFromTopinJet oobI oobQ pi (getQ FatJet_phi oobQ fatJetIdx)
            (getQ FatJet_eta oobQ fatJetIdx) nGenPart gphi geta gpdg gmother = 1 ∧
          qqFromWAllInJet oobI oobQ pi (getQ FatJet_phi oobQ fatJetIdx)
            (getQ FatJet_eta oobQ fatJetIdx) nGenPart gphi geta gpdg gmother = 1) ∧
        (bFromTopBothinJet oobI oobQ pi (getQ FatJet_phi oobQ fatJetIdx)
            (getQ FatJet_eta oobQ fatJetIdx) nGenPart gphi geta gpdg gmother = 1 ∧
          qFromWInJet oobI oobQ pi (getQ FatJet_phi oobQ fatJetIdx)
            (getQ FatJet_eta oobQ fatJetIdx) nGenPart gphi geta gpdg gmother = 1))) ∧
    (classifyProbeJet oobI oobQ pi fatJetIdx FatJet_phi FatJet_eta nGenPart
        gphi geta gpdg gmother = 1 ↔
      (¬ (bFromTopinJet oobI oobQ pi (getQ FatJet_phi oobQ fatJetIdx)
            (getQ FatJet_eta oobQ fatJetIdx) nGenPart gphi geta gpdg gmother = 1 ∧
          qqFromWAllInJet oobI oobQ pi (getQ FatJet_phi oobQ fatJetIdx)
            (getQ FatJet_eta oobQ fatJetIdx) nGenPart gphi geta gpdg gmother = 1) ∧
        ¬ (bFromTopBothinJet oobI oobQ pi (getQ FatJet_phi oobQ fatJetIdx)
            (getQ FatJet_eta oobQ fatJetIdx) nGenPart gphi geta gpdg gmother = 1 ∧
          qFromWInJet oobI oobQ pi (getQ FatJet_phi oobQ fatJetIdx)
            (getQ FatJet_eta oobQ fatJetIdx) nGenPart gphi geta gpdg gmother = 1) ∧
        qqFromWAllInJet oobI oobQ pi (getQ FatJet_phi oobQ fatJetIdx)
          (getQ FatJet_eta oobQ fatJetIdx) nGenPart gphi geta gpdg gmother = 1)) ∧
    (classifyProbeJet oobI oobQ pi fatJetIdx FatJet_phi FatJet_eta nGenPart
        gphi geta gpdg gmother = 0 ↔
      (¬ (bFromTopinJet oobI oobQ pi (getQ FatJet_phi oobQ fatJetIdx)
            (getQ FatJet_eta oobQ fatJetIdx) nGenPart gphi geta gpdg gmother = 1 ∧
          qqFromWAllInJet oobI oobQ pi (getQ FatJet_phi oobQ fatJetIdx)
            (getQ FatJet_eta oobQ fatJetIdx) nGenPart gphi geta gpdg gmother = 1) ∧
        ¬ (bFromTopBothinJet oobI oobQ pi (getQ FatJet_phi oobQ fatJetIdx)
            (getQ FatJet_eta oobQ fatJetIdx) nGenPart gphi geta gpdg gmother = 1 ∧
          qFromWInJet oobI oobQ pi (getQ FatJet_phi oobQ fatJetIdx)
            (getQ FatJet_eta oobQ fatJetIdx) nGenPart gphi geta gpdg gmother = 1) ∧
        ¬ qqFromWAllInJet oobI oobQ pi (getQ FatJet_phi oobQ fatJetIdx)
          (getQ FatJet_eta oobQ fatJetIdx) nGenPart gphi geta gpdg gmother = 1)) := by
  have hA : bFromTopinJet oobI oobQ pi (getQ FatJet_phi oobQ fatJetIdx)
      (getQ FatJet_eta oobQ fatJetIdx) nGenPart gphi geta gpdg gmother = 0 ∨
      bFromTopinJet oobI oobQ pi (getQ FatJet_phi oobQ fatJetIdx)
        (getQ FatJet_eta oobQ fatJetIdx) nGenPart gphi geta gpdg gmother = 1 :=
    bLoop01 oobI oobQ pi (getQ FatJet_phi oobQ fatJetIdx)
      (getQ FatJet_eta oobQ fatJetIdx) gphi geta gpdg gmother (List.range nGenPart)
  have hB : bFromTopBothinJet oobI oobQ pi (getQ FatJet_phi oobQ fatJetIdx)
      (getQ FatJet_eta oobQ fatJetIdx) nGenPart gphi geta gpdg gmother = 0 ∨
      bFromTopBothinJet oobI oobQ pi (getQ FatJet_phi oobQ fatJetIdx)
        (getQ FatJet_eta oobQ fatJetIdx) nGenPart gphi geta gpdg gmother = 1 :=
    bbLoop01 oobI oobQ pi (getQ FatJet_phi oobQ fatJetIdx)
      (getQ FatJet_eta oobQ fatJetIdx) gphi geta gpdg gmother (List.range nGenPart)
  have hQ : qFromWInJet oobI oobQ pi (getQ FatJet_phi oobQ fatJetIdx)
      (getQ FatJet_eta oobQ fatJetIdx) nGenPart gphi geta gpdg gmother = 0 ∨
      qFromWInJet oobI oobQ pi (getQ FatJet_phi oobQ fatJetIdx)
        (getQ FatJet_eta oobQ fatJetIdx) nGenPart gphi geta gpdg gmother = 1 :=
    qLoop01 oobI oobQ pi (getQ FatJet_phi oobQ fatJetIdx)
      (getQ FatJet_eta oobQ fatJetIdx) gphi geta gpdg gmother (List.range nGenPart)
  have hQQ := qqFromWAllInJet01 oobI oobQ pi (getQ FatJet_phi oobQ fatJetIdx)
    (getQ FatJet_eta oobQ fatJetIdx) nGenPart gphi geta gpdg gmother
  simp only [classifyProbeJet]
  rcases hA with hA | hA <;> rcases hB with hB | hB <;> rcases hQ with hQ | hQ <;>
    rcases hQQ with hQQ | hQQ <;>
    simp only [hA, hB, hQ, hQQ] <;> decide

end JetSel
